import Mathlib

/-!
Verification of `appstore-ratings-extractor.py`.

The program is a one-shot CLI: it performs one HTTP GET for an App Store
product page, locates an embedded `productRatings` JSON block in the HTML
body with a fixed regular expression, decodes it with `json.loads`,
validates the record, and prints it with `json.dumps`.

This file shallowly embeds the program.  The HTTP exchange is a parameter
of the model (a status/body pair or a transport failure), since the tool
performs exactly one GET and every claim is about what the program does
with the response.  Response bodies, captured fragments and printed output
are modelled as strings (lists of characters).
-/

set_option maxHeartbeats 2000000
set_option maxRecDepth 100000

namespace ASRE

/-- JSON values as handled by Python's `json` module.  Numbers keep their
decimal source literal: the program never computes with numbers, it only
passes them from the decoded block to the serialized output, and for a
literal in canonical form (as emitted by the serializer) parse followed by
dump reproduces the literal exactly.  Objects are key/value lists in
insertion order, mirroring Python dicts. -/
inductive Json where
  | null : Json
  | bool (b : Bool) : Json
  | num (lit : String) : Json
  | str (s : String) : Json
  | arr (items : List Json) : Json
  | obj (fields : List (String × Json)) : Json
deriving Repr

/-- Hexadecimal digit character, lowercase, as produced by Python's
`\u00xx` escapes. -/
def hexDigit (n : Nat) : Char :=
  if n < 10 then Char.ofNat (48 + n) else Char.ofNat (87 + n)

/-- Escape one character the way `json.dumps(..., ensure_ascii=False)`
does: only `"` and backslash and control characters below 0x20 are
escaped; everything else is emitted raw. -/
def escChar (c : Char) : List Char :=
  if c = '"' then ['\\', '"']
  else if c = '\\' then ['\\', '\\']
  else if c = '\n' then ['\\', 'n']
  else if c = '\r' then ['\\', 'r']
  else if c = '\t' then ['\\', 't']
  else if c = '\x08' then ['\\', 'b']
  else if c = '\x0c' then ['\\', 'f']
  else if c.toNat < 32 then
    ['\\', 'u', '0', '0', hexDigit (c.toNat / 16), hexDigit (c.toNat % 16)]
  else [c]

/-- Escape a whole string body (without the surrounding quotes). -/
def escStr : List Char → List Char
  | [] => []
  | c :: l => escChar c ++ escStr l

mutual

/-- Serialize a JSON value with the given item separator and key separator,
as `json.dumps` does for `indent=None`.  The compact run of the program
uses Python's defaults `", "` and `": "`. -/
def dumpVal (isep ksep : List Char) : Json → List Char
  | .null => ("null").data
  | .bool true => ("true").data
  | .bool false => ("false").data
  | .num lit => lit.data
  | .str s => '"' :: (escStr s.data ++ ['"'])
  | .arr items => '[' :: (dumpItems isep ksep items ++ [']'])
  | .obj fs => '{' :: (dumpFields isep ksep fs ++ ['}'])

/-- Serialize array elements joined by the item separator. -/
def dumpItems (isep ksep : List Char) : List Json → List Char
  | [] => []
  | [j] => dumpVal isep ksep j
  | j :: rest => dumpVal isep ksep j ++ isep ++ dumpItems isep ksep rest

/-- Serialize object members joined by the item separator, each member a
quoted escaped key, the key separator, and the value. -/
def dumpFields (isep ksep : List Char) : List (String × Json) → List Char
  | [] => []
  | [(k, v)] => '"' :: (escStr k.data ++ ('"' :: (ksep ++ dumpVal isep ksep v)))
  | (k, v) :: rest =>
      ('"' :: (escStr k.data ++ ('"' :: (ksep ++ dumpVal isep ksep v))))
        ++ isep ++ dumpFields isep ksep rest

end

/-- Item separator of Python's compact default `", "`. -/
def cItemSep : List Char := [',', ' ']

/-- Key separator of Python's compact default `": "`. -/
def cKeySep : List Char := [':', ' ']

/-- Item separator with no whitespace, used as the normal form that
whitespace-stripping reduces both output modes to. -/
def mItemSep : List Char := [',']

/-- Key separator with no whitespace. -/
def mKeySep : List Char := [':']

/-- Indentation prefix at nesting depth `d` for `indent=2`. -/
def ind (d : Nat) : List Char := List.replicate (2 * d) ' '

mutual

/-- Serialize a JSON value the way `json.dumps(..., indent=2)` does:
containers open with a newline, put each element on its own line indented
two spaces deeper, and close on a fresh line at the enclosing depth; the
key separator is `": "` and the item separator is `","` followed by the
newline and indentation. -/
def pdumpVal (d : Nat) : Json → List Char
  | .null => ("null").data
  | .bool true => ("true").data
  | .bool false => ("false").data
  | .num lit => lit.data
  | .str s => '"' :: (escStr s.data ++ ['"'])
  | .arr [] => ['[', ']']
  | .arr (j :: rest) =>
      '[' :: '\n' :: (ind (d + 1) ++ (pdumpItems (d + 1) (j :: rest)
        ++ '\n' :: (ind d ++ [']'])))
  | .obj [] => ['{', '}']
  | .obj (f :: rest) =>
      '{' :: '\n' :: (ind (d + 1) ++ (pdumpFields (d + 1) (f :: rest)
        ++ '\n' :: (ind d ++ ['}'])))

/-- Serialize the element list of a pretty-printed array, elements joined
by a comma, a newline and the indentation at the current depth. -/
def pdumpItems (d : Nat) : List Json → List Char
  | [] => []
  | [j] => pdumpVal d j
  | j :: rest => pdumpVal d j ++ ',' :: '\n' :: (ind d ++ pdumpItems d rest)

/-- Serialize the member list of a pretty-printed object. -/
def pdumpFields (d : Nat) : List (String × Json) → List Char
  | [] => []
  | [(k, v)] => '"' :: (escStr k.data ++ ('"' :: (cKeySep ++ pdumpVal d v)))
  | (k, v) :: rest =>
      ('"' :: (escStr k.data ++ ('"' :: (cKeySep ++ pdumpVal d v))))
        ++ ',' :: '\n' :: (ind d ++ pdumpFields d rest)

end

/-- Whitespace characters that are insignificant in JSON (and that
`json.loads` skips between tokens). -/
def isJsonWs (c : Char) : Bool :=
  c == ' ' || c == '\t' || c == '\n' || c == '\r'

/-- Remove JSON-insignificant whitespace from serialized text: a state
machine over the character list tracking whether the position is inside a
string literal (`inStr`) and right after a backslash inside one (`esc`).
Whitespace outside string literals is dropped; everything else is kept. -/
def stripL : Bool → Bool → List Char → List Char
  | _, _, [] => []
  | false, _, c :: l =>
      if isJsonWs c then stripL false false l
      else if c = '"' then c :: stripL true false l
      else c :: stripL false false l
  | true, false, c :: l =>
      if c = '\\' then c :: stripL true true l
      else if c = '"' then c :: stripL false false l
      else c :: stripL true false l
  | true, true, c :: l => c :: stripL true false l

/-- Strip JSON-insignificant whitespace starting outside any string. -/
def stripJson (l : List Char) : List Char := stripL false false l

/-- Characters that can occur in a number literal produced by the JSON
scanner (digits, sign, point, exponent letters, and the letters of the
`NaN`/`Infinity` constants). -/
def isNumLitChar (c : Char) : Bool :=
  c.isDigit || c == '-' || c == '+' || c == '.' || c == 'e' || c == 'E' ||
  c == 'N' || c == 'a' || c == 'I' || c == 'n' || c == 'f' || c == 'i' ||
  c == 't' || c == 'y'

mutual

/-- Wellformedness of a JSON value as produced by the decoder: every
number literal consists of number-literal characters.  (String contents
are unconstrained; the serializer escapes them.) -/
def Json.wf : Json → Bool
  | .null => true
  | .bool _ => true
  | .num lit => lit.data.all isNumLitChar
  | .str _ => true
  | .arr items => Json.wfList items
  | .obj fs => Json.wfFields fs

/-- Wellformedness of each element of an array. -/
def Json.wfList : List Json → Bool
  | [] => true
  | j :: r => Json.wf j && Json.wfList r

/-- Wellformedness of each value of an object. -/
def Json.wfFields : List (String × Json) → Bool
  | [] => true
  | f :: r => Json.wf f.2 && Json.wfFields r

end

/-- Drop leading JSON whitespace, as the decoder does between tokens. -/
def skipWs : List Char → List Char
  | [] => []
  | c :: l => if isJsonWs c then skipWs l else c :: l

/-- Insert a key/value pair into an object under construction the way a
Python dict assignment does: an existing key keeps its original position
and receives the new value, a new key is appended at the end. -/
def insertKey : List (String × Json) → String → Json → List (String × Json)
  | [], k, v => [(k, v)]
  | (k2, v2) :: rest, k, v =>
      if k2 = k then (k, v) :: rest else (k2, v2) :: insertKey rest k v

/-- Hexadecimal digit test for the four digits of a `\uXXXX` escape. -/
def isHexDig (c : Char) : Bool :=
  c.isDigit || (97 ≤ c.toNat && c.toNat ≤ 102) || (65 ≤ c.toNat && c.toNat ≤ 70)

/-- Numeric value of a hexadecimal digit character. -/
def hexVal (c : Char) : Nat :=
  if c.isDigit then c.toNat - 48
  else if 97 ≤ c.toNat then c.toNat - 87
  else c.toNat - 55

/-- Decoding of a two-character escape inside a JSON string literal, per
the `json` module's strict decoder. -/
def escMap (c : Char) : Option Char :=
  if c = '"' then some '"'
  else if c = '\\' then some '\\'
  else if c = '/' then some '/'
  else if c = 'b' then some '\x08'
  else if c = 'f' then some '\x0c'
  else if c = 'n' then some '\n'
  else if c = 'r' then some '\r'
  else if c = 't' then some '\t'
  else none

/-- Parse the body of a JSON string literal after the opening quote, up to
and through the closing quote, returning the decoded characters and the
remaining input.  Mirrors the strict `json.loads` scanner: raw control
characters below 0x20 are rejected, unknown escapes are rejected, and an
unterminated literal fails.  (Combining of `\uXXXX` surrogate pairs is not
modelled; no claim involves characters outside the basic plane.) -/
def parseStrChars : List Char → Option (List Char × List Char)
  | [] => none
  | '"' :: r => some ([], r)
  | '\\' :: 'u' :: a :: b :: c :: d :: r =>
      if isHexDig a && isHexDig b && isHexDig c && isHexDig d then
        (parseStrChars r).map (fun p =>
          (Char.ofNat (hexVal a * 4096 + hexVal b * 256 + hexVal c * 16 + hexVal d) :: p.1, p.2))
      else none
  | '\\' :: e :: r =>
      match escMap e with
      | some c => (parseStrChars r).map (fun p => (c :: p.1, p.2))
      | none => none
  | c :: r =>
      if c.toNat < 32 then none
      else (parseStrChars r).map (fun p => (c :: p.1, p.2))

/-- Characters that can extend a number token. -/
def isNumBodyChar (c : Char) : Bool :=
  c.isDigit || c == '-' || c == '+' || c == '.' || c == 'e' || c == 'E'

/-- Consume an optional leading minus sign. -/
def chompSign : List Char → List Char
  | '-' :: r => r
  | l => l

/-- Consume the integer part `0 | [1-9][0-9]*` of a number token. -/
def chompInt : List Char → Option (List Char)
  | '0' :: r => some r
  | c :: r => if c.isDigit then some (r.dropWhile Char.isDigit) else none
  | [] => none

/-- Consume an optional fraction part `.[0-9]+`. -/
def chompFrac : List Char → Option (List Char)
  | '.' :: r =>
      if (r.takeWhile Char.isDigit).isEmpty then none
      else some (r.dropWhile Char.isDigit)
  | l => some l

/-- Consume an optional exponent part `[eE][+-]?[0-9]+`. -/
def chompExp : List Char → Option (List Char)
  | c :: r =>
      if c == 'e' || c == 'E' then
        let r2 := match r with
          | s :: r3 => if s == '+' || s == '-' then r3 else s :: r3
          | [] => []
        if (r2.takeWhile Char.isDigit).isEmpty then none
        else some (r2.dropWhile Char.isDigit)
      else some (c :: r)
  | [] => some []

/-- Validity of a complete number token against the decoder's number
grammar `-?(0|[1-9][0-9]*)(\.[0-9]+)?([eE][+-]?[0-9]+)?`. -/
def isValidNumTok (l : List Char) : Bool :=
  match chompInt (chompSign l) with
  | none => false
  | some r1 =>
    match chompFrac r1 with
    | none => false
    | some r2 =>
      match chompExp r2 with
      | none => false
      | some r3 => r3.isEmpty

/-- Scan a number token at the head of the input.  The maximal run of
number-token characters is taken and checked against the number grammar;
this accepts and rejects exactly the inputs the decoder's regular
expression scan accepts and rejects, since a shorter regular-expression
match would leave a number character in a delimiter position, which the
decoder then rejects. -/
def parseNumber (l : List Char) : Option (Json × List Char) :=
  let tok := l.takeWhile isNumBodyChar
  if isValidNumTok tok then some (.num ⟨tok⟩, l.drop tok.length) else none

/-- Scan a scalar token at the head of the input: the literal constants
`true`, `false`, `null`, `NaN`, `Infinity`, `-Infinity`, or a number.
The constant dispatch matches the `json.loads` scanner; the relative
order with the number scan is immaterial because no valid number shares a
prefix with a constant. -/
def parseScalar (l : List Char) : Option (Json × List Char) :=
  if ("true").data.isPrefixOf l then some (.bool true, l.drop 4)
  else if ("false").data.isPrefixOf l then some (.bool false, l.drop 5)
  else if ("null").data.isPrefixOf l then some (.null, l.drop 4)
  else if ("NaN").data.isPrefixOf l then some (.num "NaN", l.drop 3)
  else if ("Infinity").data.isPrefixOf l then some (.num "Infinity", l.drop 8)
  else if ("-Infinity").data.isPrefixOf l then some (.num "-Infinity", l.drop 9)
  else parseNumber l

mutual

/-- Parse one JSON value after skipping leading whitespace, mirroring the
recursive `json.loads` scanner.  `fuel` bounds the recursion depth and is
chosen large enough at the entry point (`loads`) that it never runs out on
input the real decoder accepts. -/
def parseValue : Nat → List Char → Option (Json × List Char)
  | 0, _ => none
  | fu + 1, l =>
    match skipWs l with
    | [] => none
    | c :: r =>
      if c = '{' then
        match skipWs r with
        | [] => parseMembers fu [] []
        | c2 :: r2 =>
          if c2 = '}' then some (.obj [], r2) else parseMembers fu [] (c2 :: r2)
      else if c = '[' then
        match skipWs r with
        | [] => parseItems fu [] []
        | c2 :: r2 =>
          if c2 = ']' then some (.arr [], r2) else parseItems fu [] (c2 :: r2)
      else if c = '"' then
        (parseStrChars r).map (fun p => (.str ⟨p.1⟩, p.2))
      else parseScalar (c :: r)

/-- Parse the members of a nonempty object: a quoted key, a colon, a value,
then either a comma and further members or the closing brace.  Duplicate
keys behave like repeated dict assignment via `insertKey`. -/
def parseMembers : Nat → List (String × Json) → List Char → Option (Json × List Char)
  | 0, _, _ => none
  | fu + 1, acc, l =>
    match skipWs l with
    | [] => none
    | c :: r =>
      if c = '"' then
        match parseStrChars r with
        | none => none
        | some (kcs, r1) =>
          match skipWs r1 with
          | [] => none
          | c2 :: r2 =>
            if c2 = ':' then
              match parseValue fu r2 with
              | none => none
              | some (v, r3) =>
                match skipWs r3 with
                | [] => none
                | c3 :: r4 =>
                  if c3 = ',' then parseMembers fu (insertKey acc ⟨kcs⟩ v) r4
                  else if c3 = '}' then some (.obj (insertKey acc ⟨kcs⟩ v), r4)
                  else none
            else none
      else none

/-- Parse the elements of a nonempty array: a value, then either a comma
and further elements or the closing bracket. -/
def parseItems : Nat → List Json → List Char → Option (Json × List Char)
  | 0, _, _ => none
  | fu + 1, acc, l =>
    match parseValue fu l with
    | none => none
    | some (v, r) =>
      match skipWs r with
      | [] => none
      | c :: r2 =>
        if c = ',' then parseItems fu (acc ++ [v]) r2
        else if c = ']' then some (.arr (acc ++ [v]), r2)
        else none

end

/-- Model of `json.loads`: parse one value and require only whitespace to
remain.  The fuel exceeds twice the input length, which dominates the
recursion depth (every two recursive steps consume at least one input
character). -/
def loads (l : List Char) : Option Json :=
  match parseValue (2 * l.length + 4) l with
  | some (j, r) => if (skipWs r).isEmpty then some j else none
  | none => none

/-- Literal part of `PRODUCT_RATINGS_PATTERN` up to and including the
opening bracket of the items array:
`"contentType":"productRatings","marker":null,"items":[`.
The capture group `(\x7b.*?\x7d)` follows, then a literal `]`. -/
def PRODUCT_RATINGS_PATTERN_lit : List Char :=
  ("\"contentType\":\"productRatings\",\"marker\":null,\"items\":[").data

/-- Find the shortest middle part `m` with the input equal to
`m ++ "\x7d]" ++ rest`, the lazy completion of the capture group `.*?`
followed by `\x7d]` under `re.DOTALL` (any character, newlines included).
Returns `none` when no `\x7d]` occurs, in which case the regex engine
fails at this start position. -/
def splitCloser : List Char → Option (List Char)
  | [] => none
  | '}' :: ']' :: _ => some []
  | c :: rest => (splitCloser rest).map (fun m => c :: m)

/-- Attempt the pattern at the current position: the literal prefix, then
an opening brace starting the capture group, then the lazy completion.
The returned capture is the group text including its braces. -/
def tryMatchAt (l : List Char) : Option (List Char) :=
  if PRODUCT_RATINGS_PATTERN_lit.isPrefixOf l then
    match l.drop PRODUCT_RATINGS_PATTERN_lit.length with
    | '{' :: rest => (splitCloser rest).map (fun m => '{' :: (m ++ ['}']))
    | _ => none
  else none

/-- Model of `PRODUCT_RATINGS_PATTERN.search`: try the pattern at each
start position from the left and return the first capture, matching the
leftmost-match rule of `re.search`. -/
def patternSearch : List Char → Option (List Char)
  | [] => none
  | c :: rest =>
    match tryMatchAt (c :: rest) with
    | some g => some g
    | none => patternSearch rest

/-- Substring test used to state claims about bodies that do or do not
contain the marker text. -/
def containsTok (pat : List Char) : List Char → Bool
  | [] => pat.isEmpty
  | c :: rest => pat.isPrefixOf (c :: rest) || containsTok pat rest

/-- Membership of a key in a decoded object, Python's `key in parsed`. -/
def containsKey (fields : List (String × Json)) (k : String) : Bool :=
  fields.any (fun f => f.1 == k)

/-- Value of a key in a decoded object.  The program only reads keys whose
presence validation has already established, so the default is never
reached on the program's paths. -/
def lookupD (fields : List (String × Json)) (k : String) : Json :=
  match fields with
  | [] => .null
  | (k2, v) :: rest => if k2 = k then v else lookupD rest k

/-- Error message raised when the marker pattern has no match. -/
def notFoundMsg : String := "productRatings block not found in HTML response"

/-- Error message raised when the captured fragment fails to decode.  The
Python message appends the `JSONDecodeError` detail; no claim depends on
the detail, so the model keeps the fixed prefix. -/
def decodeMsg : String := "Failed to decode productRatings JSON"

/-- Error message raised when `ratingCounts` is not a five-element list. -/
def rcMsg : String := "ratingCounts must be a list of five integers (5★ ➝ 1★)"

/-- Required keys of the productRatings record, in the order the source
tuple lists them. -/
def requiredKeys : List String :=
  ["ratingAverage", "totalNumberOfRatings", "ratingCounts"]

/-- Missing required keys of a decoded record, in source order. -/
def missingKeysOf (fields : List (String × Json)) : List String :=
  requiredKeys.filter (fun k => !containsKey fields k)

/-- Error message listing missing required keys. -/
def missingMsg (ks : List String) : String :=
  "Missing expected keys in productRatings block: " ++ String.intercalate ", " ks

/-- Python's `isinstance(rating_counts, list) and len(rating_counts) == 5`
test: JSON arrays decode to Python lists, every other JSON value decodes
to a non-list. -/
def isList5 : Json → Bool
  | .arr l => l.length == 5
  | _ => false

/-- Validation steps of `_extract_product_ratings` after decoding (source
lines 65-73): collect missing required keys and fail naming them, then
require `ratingCounts` to be a list of exactly five entries, then return
the record unchanged. -/
def validateRecord (fields : List (String × Json)) :
    Except String (List (String × Json)) :=
  match missingKeysOf fields with
  | [] =>
      if isList5 (lookupD fields "ratingCounts") then .ok fields
      else .error rcMsg
  | ks => .error (missingMsg ks)

/-- Model of `_extract_product_ratings`: search the body for the marker
pattern, wrap the capture in array brackets, decode, take element zero of
the decoded array, and validate.  When the pattern matches, the capture
starts with an opening brace, so a successful decode always yields an
array whose first element is an object; the remaining decode branches are
unreachable and map to the decode error. -/
def extract_product_ratings (body : String) :
    Except String (List (String × Json)) :=
  match patternSearch body.data with
  | none => .error notFoundMsg
  | some block =>
    match loads ('[' :: (block ++ [']'])) with
    | some (.arr (.obj fields :: _)) => validateRecord fields
    | some _ => .error decodeMsg
    | none => .error decodeMsg

/-- Rating summary returned by `fetch_product_ratings`: a fresh record
with exactly the three fields, in the order the source dict literal lists
them. -/
structure RatingSummary where
  ratingAverage : Json
  totalNumberOfRatings : Json
  ratingCounts : Json
deriving Repr

/-- JSON record the summary serializes as, key order preserved from the
source dict literal. -/
def RatingSummary.toJson (s : RatingSummary) : Json :=
  .obj [("ratingAverage", s.ratingAverage),
        ("totalNumberOfRatings", s.totalNumberOfRatings),
        ("ratingCounts", s.ratingCounts)]

/-- Outcome of the single `requests.get` call: a response with a status
code and a decoded body text, or a transport-level failure
(`RequestException`) with its description. -/
inductive FetchOutcome where
  | response (status : Nat) (body : String)
  | transportFailure (detail : String)

/-- Model of `fetch_product_ratings`.  `response.raise_for_status()`
raises `HTTPError` exactly for status codes 400-599 (client and server
errors); redirects are followed inside `requests.get`, so other statuses
reach extraction.  On success a new three-field record is built from the
validated one.  The URL built from `app_id` and `country` only addresses
the request, so the model takes the exchange outcome directly. -/
def fetch_product_ratings (outcome : FetchOutcome) :
    Except String RatingSummary :=
  match outcome with
  | .transportFailure d => .error ("Failed to fetch App Store page: " ++ d)
  | .response st body =>
    if 400 ≤ st ∧ st < 600 then
      .error ("App Store page returned HTTP " ++ toString st)
    else
      match extract_product_ratings body with
      | .error e => .error e
      | .ok fields =>
          .ok ⟨lookupD fields "ratingAverage",
               lookupD fields "totalNumberOfRatings",
               lookupD fields "ratingCounts"⟩

/-- Parsed command-line arguments. -/
structure Args where
  app_id : String
  country : String
  pretty : Bool
deriving Repr

/-- Result of argument parsing: parsed arguments, a help request, or an
argparse error. -/
inductive ParseOut where
  | ok (a : Args)
  | help
  | err (msg : String)

/-- Prefix test on the character lists of two strings. -/
def strStarts (pre s : String) : Bool := pre.data.isPrefixOf s.data

/-- Model of `parse_args` for the declared interface: one required
positional `app_id`, `--country` with a value (separate or `=`-joined,
default `"ua"`), the `--pretty` flag, and `-h`/`--help`.  Any other
option-like argument and any extra positional are argparse errors.
(Argparse's prefix abbreviation of long options is not modelled; no claim
exercises it.) -/
def parseArgsGo : List String → Option String → String → Bool → ParseOut
  | [], none, _, _ => .err "the following arguments are required: app_id"
  | [], some i, c, p => .ok ⟨i, c, p⟩
  | a :: rest, i, c, p =>
    if a = "-h" ∨ a = "--help" then .help
    else if a = "--pretty" then parseArgsGo rest i c true
    else if a = "--country" then
      match rest with
      | v :: rest2 => parseArgsGo rest2 i v p
      | [] => .err "argument --country: expected one argument"
    else if strStarts "--country=" a then
      parseArgsGo rest i (a.drop 10) p
    else if strStarts "-" a ∧ a ≠ "-" then
      .err ("unrecognized arguments: " ++ a)
    else
      match i with
      | none => parseArgsGo rest (some a) c p
      | some _ => .err ("unrecognized arguments: " ++ a)

/-- Entry point of argument parsing with the source defaults. -/
def parse_args (argv : List String) : ParseOut :=
  parseArgsGo argv none "ua" false

/-- Observable outcome of one process invocation. -/
structure CliResult where
  exitCode : Nat
  stdout : String
  stderr : String
deriving Repr, DecidableEq

/-- Usage text argparse writes before its error line; its exact wording is
not relied on by any claim. -/
def usageText : String :=
  "usage: appstore-ratings-extractor [-h] [--country COUNTRY] [--pretty] app_id\n"

/-- Serialization of the summary as `main` performs it: `json.dumps` with
`ensure_ascii=False` and `indent=2` when `--pretty` is given (followed by
the newline `print` appends), or `indent=None` (Python's default
separators `", "` and `": "`) with `end=""` otherwise. -/
def dumpsSummary (pretty : Bool) (s : RatingSummary) : String :=
  if pretty then ⟨pdumpVal 0 s.toJson ++ ['\n']⟩
  else ⟨dumpVal cItemSep cKeySep s.toJson⟩

/-- Model of one process run `python appstore-ratings-extractor.py argv`.
Argparse failures raise `SystemExit(2)` out of `parse_args` before
`main`'s try block, so they exit with code 2 and argparse's messages on
standard error; `-h` prints help and exits 0.  With parsed arguments,
`main` catches any pipeline exception, prints one `error: `-prefixed line
to standard error and returns 1; on success it prints the serialized
record to standard output and returns 0. -/
def runCli (argv : List String) (outcome : FetchOutcome) : CliResult :=
  match parse_args argv with
  | .err m =>
      ⟨2, "", usageText ++ "appstore-ratings-extractor: error: " ++ m ++ "\n"⟩
  | .help => ⟨0, usageText, ""⟩
  | .ok a =>
    match fetch_product_ratings outcome with
    | .error m => ⟨1, "", "error: " ++ m ++ "\n"⟩
    | .ok s => ⟨0, dumpsSummary a.pretty s, ""⟩

/-- Summary record built by `fetch_product_ratings` from a validated
productRatings record. -/
def summaryOf (fields : List (String × Json)) : RatingSummary :=
  ⟨lookupD fields "ratingAverage",
   lookupD fields "totalNumberOfRatings",
   lookupD fields "ratingCounts"⟩

/-- Characters that whitespace-stripping keeps unchanged outside string
literals without entering string state. -/
def plainChar (c : Char) : Bool := !isJsonWs c && !(c == '"')

/-- The productRatings block text of the end-to-end success scenario. -/
def blockX : String :=
  "\"contentType\":\"productRatings\",\"marker\":null,\"items\":[\x7b\"ratingAverage\":4.5,\"totalNumberOfRatings\":120,\"ratingCounts\":[80,20,10,5,5]\x7d]"

/-- Capture group of the marker pattern on the scenario block: the inner
object text. -/
def blockObjX : String :=
  "\x7b\"ratingAverage\":4.5,\"totalNumberOfRatings\":120,\"ratingCounts\":[80,20,10,5,5]\x7d"

/-- Exact compact output required by the end-to-end success scenario. -/
def expectedOutX : String :=
  "\x7b\"ratingAverage\": 4.5, \"totalNumberOfRatings\": 120, \"ratingCounts\": [80, 20, 10, 5, 5]\x7d"

/-- Scenario body: the block embedded in otherwise inert HTML. -/
def bodyX : String := "<html>" ++ blockX ++ "</html>"

/-- Body containing a different productRatings block before the scenario
block: the pattern matches the earlier block first. -/
def evilBody : String :=
  "\"contentType\":\"productRatings\",\"marker\":null,\"items\":[\x7b\"ratingAverage\":1,\"totalNumberOfRatings\":2,\"ratingCounts\":[1,1,0,0,0]\x7d]"
    ++ blockX

/-- Body whose productRatings block carries a non-null marker value, so
the literal `"marker":null` never occurs. -/
def bodyNonNull : String :=
  "<html>\"contentType\":\"productRatings\",\"marker\":\"abc\",\"items\":[\x7b\"ratingAverage\":4.5,\"totalNumberOfRatings\":120,\"ratingCounts\":[80,20,10,5,5]\x7d]</html>"

/-- Body with no trace of the marker. -/
def bodyPlain : String := "<html><body>no ratings here</body></html>"

/-- Body whose record lacks two of the three required fields. -/
def bodyMissing : String :=
  "\"contentType\":\"productRatings\",\"marker\":null,\"items\":[\x7b\"ratingAverage\":4.5,\"other\":1\x7d]"

/-- Body whose record has a four-element `ratingCounts`. -/
def bodyFour : String :=
  "\"contentType\":\"productRatings\",\"marker\":null,\"items\":[\x7b\"ratingAverage\":4.5,\"totalNumberOfRatings\":120,\"ratingCounts\":[80,20,10,5]\x7d]"

/-- Body whose record has five string entries in `ratingCounts`. -/
def bodyStrs : String :=
  "\"contentType\":\"productRatings\",\"marker\":null,\"items\":[\x7b\"ratingAverage\":4.5,\"totalNumberOfRatings\":120,\"ratingCounts\":[\"a\",\"b\",\"c\",\"d\",\"e\"]\x7d]"

/-- Body whose record carries an additional field beyond the three
required ones. -/
def bodyExtra : String :=
  "\"contentType\":\"productRatings\",\"marker\":null,\"items\":[\x7b\"ratingAverage\":4.5,\"totalNumberOfRatings\":120,\"ratingCounts\":[80,20,10,5,5],\"extra\":7\x7d]"

/-- Body with two marker blocks, the first of whose items array holds two
objects: exercises both leftmost matching and first-element selection. -/
def bodyTwo : String :=
  "<html>\"contentType\":\"productRatings\",\"marker\":null,\"items\":[\x7b\"ratingAverage\":1,\"totalNumberOfRatings\":2,\"ratingCounts\":[1,1,0,0,0]\x7d,\x7b\"ratingAverage\":9\x7d]x"
    ++ blockX ++ "</html>"

/-- Capture of the pattern on `bodyTwo`: both objects of the first items
array, because the lazy group only stops at the first close-brace
followed by a close-bracket. -/
def captureTwo : String :=
  "\x7b\"ratingAverage\":1,\"totalNumberOfRatings\":2,\"ratingCounts\":[1,1,0,0,0]\x7d,\x7b\"ratingAverage\":9\x7d"

/-- Decoded first object of `captureTwo`. -/
def fieldsTwo : List (String × Json) :=
  [("ratingAverage", .num "1"), ("totalNumberOfRatings", .num "2"),
   ("ratingCounts", .arr [.num "1", .num "1", .num "0", .num "0", .num "0"])]

/-- Decoded record of the scenario block `blockObjX`. -/
def fieldsX : List (String × Json) :=
  [("ratingAverage", .num "4.5"), ("totalNumberOfRatings", .num "120"),
   ("ratingCounts", .arr [.num "80", .num "20", .num "10", .num "5", .num "5"])]

/-- Decoded record of `bodyExtra`, carrying a fourth field. -/
def fieldsExtra : List (String × Json) :=
  [("ratingAverage", .num "4.5"), ("totalNumberOfRatings", .num "120"),
   ("ratingCounts", .arr [.num "80", .num "20", .num "10", .num "5", .num "5"]),
   ("extra", .num "7")]

/-- Decoded record of `bodyStrs`: five string entries in `ratingCounts`. -/
def fieldsStrs : List (String × Json) :=
  [("ratingAverage", .num "4.5"), ("totalNumberOfRatings", .num "120"),
   ("ratingCounts", .arr [.str "a", .str "b", .str "c", .str "d", .str "e"])]

/-- Decoded record of `bodyFour`: four entries in `ratingCounts`. -/
def fieldsFour : List (String × Json) :=
  [("ratingAverage", .num "4.5"), ("totalNumberOfRatings", .num "120"),
   ("ratingCounts", .arr [.num "80", .num "20", .num "10", .num "5"])]

/-- Decoded record of `bodyMissing`: two required fields absent. -/
def fieldsMissing : List (String × Json) :=
  [("ratingAverage", .num "4.5"), ("other", .num "1")]

/-- Capture of the pattern on `bodyMissing`. -/
def captureMissing : String := "\x7b\"ratingAverage\":4.5,\"other\":1\x7d"

theorem stripL_nil (b e : Bool) : stripL b e [] = [] := by
  cases b <;> cases e <;> rfl

theorem stripL_ws (c : Char) (e : Bool) (l : List Char) (h : isJsonWs c = true) :
    stripL false e (c :: l) = stripL false false l := by
  simp [stripL, h]

theorem stripL_keep (c : Char) (e : Bool) (l : List Char)
    (h1 : isJsonWs c = false) (h2 : c ≠ '"') :
    stripL false e (c :: l) = c :: stripL false false l := by
  simp [stripL, h1, h2]

theorem stripL_quote (e : Bool) (l : List Char) :
    stripL false e ('"' :: l) = '"' :: stripL true false l := by
  simp [stripL, isJsonWs]

theorem stripL_inStr_keep (c : Char) (l : List Char)
    (h1 : c ≠ '\\') (h2 : c ≠ '"') :
    stripL true false (c :: l) = c :: stripL true false l := by
  simp [stripL, h1, h2]

theorem stripL_inStr_bs (l : List Char) :
    stripL true false ('\\' :: l) = '\\' :: stripL true true l := by
  simp [stripL]

theorem stripL_inStr_esc (c : Char) (l : List Char) :
    stripL true true (c :: l) = c :: stripL true false l := by
  simp [stripL]

theorem stripL_inStr_endquote (l : List Char) :
    stripL true false ('"' :: l) = '"' :: stripL false false l := by
  simp [stripL]

theorem stripL_false_irrel (e : Bool) (l : List Char) :
    stripL false e l = stripL false false l := by
  cases l <;> cases e <;> rfl

theorem plainChar_ws (c : Char) (h : plainChar c = true) : isJsonWs c = false := by
  unfold plainChar at h
  simp only [Bool.and_eq_true, Bool.not_eq_true'] at h
  exact h.1

theorem plainChar_quote (c : Char) (h : plainChar c = true) : c ≠ '"' := by
  unfold plainChar at h
  simp only [Bool.and_eq_true, Bool.not_eq_true'] at h
  intro he
  rw [he] at h
  simp at h

theorem stripL_plain (l : List Char) (h : l.all plainChar = true) (e : Bool)
    (r : List Char) :
    stripL false e (l ++ r) = l ++ stripL false false r := by
  induction l generalizing e with
  | nil => simpa using stripL_false_irrel e r
  | cons c t ih =>
    simp only [List.all_cons, Bool.and_eq_true] at h
    rw [List.cons_append,
        stripL_keep c e _ (plainChar_ws c h.1) (plainChar_quote c h.1),
        ih h.2 false, List.cons_append]

theorem hexDigit_ne_quote (n : Nat) (h : n < 16) :
    hexDigit n ≠ '"' ∧ hexDigit n ≠ '\\' := by
  interval_cases n <;> exact ⟨by decide, by decide⟩

theorem stripL_esc_pair (x : Char) (r : List Char) :
    stripL true false ('\\' :: x :: r) = '\\' :: x :: stripL true false r := by
  rw [stripL_inStr_bs, stripL_inStr_esc]

theorem stripL_escChar (c : Char) (r : List Char) :
    stripL true false (escChar c ++ r) = escChar c ++ stripL true false r := by
  by_cases h1 : c = '"'
  · subst h1
    exact stripL_esc_pair '"' r
  by_cases h2 : c = '\\'
  · subst h2
    exact stripL_esc_pair '\\' r
  by_cases h3 : c = '\n'
  · subst h3
    exact stripL_esc_pair 'n' r
  by_cases h4 : c = '\r'
  · subst h4
    exact stripL_esc_pair 'r' r
  by_cases h5 : c = '\t'
  · subst h5
    exact stripL_esc_pair 't' r
  by_cases h6 : c = '\x08'
  · subst h6
    exact stripL_esc_pair 'b' r
  by_cases h7 : c = '\x0c'
  · subst h7
    exact stripL_esc_pair 'f' r
  by_cases h8 : c.toNat < 32
  · have he : escChar c =
        ['\\', 'u', '0', '0', hexDigit (c.toNat / 16), hexDigit (c.toNat % 16)] := by
      unfold escChar
      rw [if_neg h1, if_neg h2, if_neg h3, if_neg h4, if_neg h5, if_neg h6,
          if_neg h7, if_pos h8]
    have hd1 := hexDigit_ne_quote (c.toNat / 16) (by omega)
    have hd2 := hexDigit_ne_quote (c.toNat % 16) (Nat.mod_lt _ (by omega))
    rw [he]
    simp only [List.cons_append, List.nil_append]
    rw [stripL_esc_pair,
        stripL_inStr_keep '0' _ (by decide) (by decide),
        stripL_inStr_keep '0' _ (by decide) (by decide),
        stripL_inStr_keep _ _ hd1.2 hd1.1,
        stripL_inStr_keep _ _ hd2.2 hd2.1]
  · have he : escChar c = [c] := by
      unfold escChar
      rw [if_neg h1, if_neg h2, if_neg h3, if_neg h4, if_neg h5, if_neg h6,
          if_neg h7, if_neg h8]
    rw [he]
    simp only [List.cons_append, List.nil_append]
    rw [stripL_inStr_keep c _ h2 h1]

theorem stripL_escStr (s : List Char) (t : List Char) :
    stripL true false (escStr s ++ t) = escStr s ++ stripL true false t := by
  induction s with
  | nil => rfl
  | cons c s ih =>
    show stripL true false (escChar c ++ escStr s ++ t) = _
    rw [List.append_assoc, stripL_escChar, ih]
    simp [escStr, List.append_assoc]

theorem stripL_qstr (s : List Char) (e : Bool) (t : List Char) :
    stripL false e ('"' :: (escStr s ++ ('"' :: t))) =
      '"' :: (escStr s ++ ('"' :: stripL false false t)) := by
  rw [stripL_quote, stripL_escStr, stripL_inStr_endquote]

theorem stripL_keySepC (r : List Char) :
    stripL false false (cKeySep ++ r) = mKeySep ++ stripL false false r := by
  show stripL false false (':' :: ' ' :: r) = ':' :: stripL false false r
  rw [stripL_keep ':' false _ (by decide) (by decide),
      stripL_ws ' ' false r (by decide)]

theorem stripL_itemSepC (r : List Char) :
    stripL false false (cItemSep ++ r) = mItemSep ++ stripL false false r := by
  show stripL false false (',' :: ' ' :: r) = ',' :: stripL false false r
  rw [stripL_keep ',' false _ (by decide) (by decide),
      stripL_ws ' ' false r (by decide)]

theorem stripL_ind (d : Nat) (r : List Char) :
    stripL false false (ind d ++ r) = stripL false false r := by
  unfold ind
  generalize 2 * d = n
  induction n with
  | zero => rfl
  | succ n ih =>
    rw [List.replicate_succ, List.cons_append, stripL_ws ' ' false _ (by decide)]
    exact ih

theorem stripL_nl_ind (d : Nat) (r : List Char) :
    stripL false false ('\n' :: (ind d ++ r)) = stripL false false r := by
  rw [stripL_ws '\n' false _ (by decide), stripL_ind]

theorem json_sizeOf_pos (j : Json) : 0 < sizeOf j := by
  cases j <;> simp_arith

theorem wfList_mem {items : List Json} (h : Json.wfList items = true)
    {x : Json} (hx : x ∈ items) : Json.wf x = true := by
  induction items with
  | nil => cases hx
  | cons y rest ih =>
    rw [Json.wfList, Bool.and_eq_true] at h
    cases hx with
    | head => exact h.1
    | tail _ hm => exact ih h.2 hm

theorem wfFields_val {fs : List (String × Json)} (h : Json.wfFields fs = true)
    {f : String × Json} (hf : f ∈ fs) : Json.wf f.2 = true := by
  induction fs with
  | nil => cases hf
  | cons g rest ih =>
    rw [Json.wfFields, Bool.and_eq_true] at h
    cases hf with
    | head => exact h.1
    | tail _ hm => exact ih h.2 hm

theorem wfFields_lookupD (fs : List (String × Json)) (k : String)
    (h : Json.wfFields fs = true) : Json.wf (lookupD fs k) = true := by
  induction fs with
  | nil => rfl
  | cons g rest ih =>
    rw [Json.wfFields, Bool.and_eq_true] at h
    match g with
    | (k2, v) =>
      rw [lookupD]
      by_cases hk : k2 = k
      · rw [if_pos hk]
        exact h.1
      · rw [if_neg hk]
        exact ih h.2

theorem numLit_plain (c : Char) (h : isNumLitChar c = true) : plainChar c = true := by
  unfold plainChar isJsonWs
  have hs : c ≠ ' ' := by
    intro he
    rw [he] at h
    simp [isNumLitChar] at h
  have ht : c ≠ '\t' := by
    intro he
    rw [he] at h
    simp [isNumLitChar] at h
  have hn : c ≠ '\n' := by
    intro he
    rw [he] at h
    simp [isNumLitChar] at h
  have hr : c ≠ '\r' := by
    intro he
    rw [he] at h
    simp [isNumLitChar] at h
  have hq : c ≠ '"' := by
    intro he
    rw [he] at h
    simp [isNumLitChar] at h
  simp [hs, ht, hn, hr, hq]

theorem numBody_lit (c : Char) (h : isNumBodyChar c = true) :
    isNumLitChar c = true := by
  unfold isNumBodyChar at h
  unfold isNumLitChar
  rcases Bool.or_eq_true_iff.mp h with h | h
  · rcases Bool.or_eq_true_iff.mp h with h | h
    · rcases Bool.or_eq_true_iff.mp h with h | h
      · rcases Bool.or_eq_true_iff.mp h with h | h
        · rcases Bool.or_eq_true_iff.mp h with h | h <;> simp [h]
        · simp [h]
      · simp [h]
    · simp [h]
  · simp [h]

theorem numLit_all_plain (l : List Char) (h : l.all isNumLitChar = true) :
    l.all plainChar = true := by
  rw [List.all_eq_true] at h ⊢
  exact fun c hc => numLit_plain c (h c hc)

theorem strip_dumpItemsC (items : List Json)
    (IH : ∀ x ∈ items, ∀ r, stripL false false (dumpVal cItemSep cKeySep x ++ r)
      = dumpVal mItemSep mKeySep x ++ stripL false false r) :
    ∀ r, stripL false false (dumpItems cItemSep cKeySep items ++ r)
      = dumpItems mItemSep mKeySep items ++ stripL false false r := by
  induction items with
  | nil =>
    intro r
    simp [dumpItems]
  | cons x rest ih =>
    intro r
    cases rest with
    | nil => exact IH x (by simp) r
    | cons y rest2 =>
      show stripL false false
          ((dumpVal cItemSep cKeySep x ++ cItemSep
            ++ dumpItems cItemSep cKeySep (y :: rest2)) ++ r) = _
      rw [List.append_assoc, List.append_assoc, IH x (by simp) _, stripL_itemSepC,
          ih (fun z hz => IH z (List.mem_cons_of_mem x hz)) r]
      show _ = (dumpVal mItemSep mKeySep x ++ mItemSep
        ++ dumpItems mItemSep mKeySep (y :: rest2)) ++ stripL false false r
      simp [List.append_assoc]

theorem strip_dumpFieldsC (fs : List (String × Json))
    (IH : ∀ f ∈ fs, ∀ r, stripL false false (dumpVal cItemSep cKeySep f.2 ++ r)
      = dumpVal mItemSep mKeySep f.2 ++ stripL false false r) :
    ∀ r, stripL false false (dumpFields cItemSep cKeySep fs ++ r)
      = dumpFields mItemSep mKeySep fs ++ stripL false false r := by
  induction fs with
  | nil =>
    intro r
    simp [dumpFields]
  | cons f rest ih =>
    intro r
    match f with
    | (k, v) =>
      cases rest with
      | nil =>
        show stripL false false
            (('"' :: (escStr k.data ++ ('"' :: (cKeySep
              ++ dumpVal cItemSep cKeySep v)))) ++ r) = _
        simp only [List.cons_append, List.append_assoc]
        rw [stripL_qstr, stripL_keySepC, IH (k, v) (by simp) r]
        show _ = '"' :: (escStr k.data ++ ('"' :: (mKeySep
          ++ dumpVal mItemSep mKeySep v))) ++ stripL false false r
        simp [List.append_assoc]
      | cons g rest2 =>
        show stripL false false
            ((('"' :: (escStr k.data ++ ('"' :: (cKeySep
              ++ dumpVal cItemSep cKeySep v)))) ++ cItemSep
              ++ dumpFields cItemSep cKeySep (g :: rest2)) ++ r) = _
        simp only [List.cons_append, List.append_assoc]
        rw [stripL_qstr, stripL_keySepC, IH (k, v) (by simp) _, stripL_itemSepC,
            ih (fun z hz => IH z (List.mem_cons_of_mem (k, v) hz)) r]
        show _ = (('"' :: (escStr k.data ++ ('"' :: (mKeySep
          ++ dumpVal mItemSep mKeySep v)))) ++ mItemSep
          ++ dumpFields mItemSep mKeySep (g :: rest2)) ++ stripL false false r
        simp [List.append_assoc]

theorem strip_dumpC (n : Nat) (j : Json) (hsz : sizeOf j ≤ n)
    (hwf : Json.wf j = true) (r : List Char) :
    stripL false false (dumpVal cItemSep cKeySep j ++ r)
      = dumpVal mItemSep mKeySep j ++ stripL false false r := by
  induction n generalizing j r with
  | zero => exact absurd hsz (by have := json_sizeOf_pos j; omega)
  | succ n ih =>
    cases j with
    | null => exact stripL_plain ("null").data (by decide) false r
    | bool b =>
      cases b
      · exact stripL_plain ("false").data (by decide) false r
      · exact stripL_plain ("true").data (by decide) false r
    | num lit =>
      rw [Json.wf] at hwf
      exact stripL_plain _ (numLit_all_plain _ hwf) false r
    | str s =>
      show stripL false false (('"' :: (escStr s.data ++ ['"'])) ++ r)
        = ('"' :: (escStr s.data ++ ['"'])) ++ stripL false false r
      simp only [List.cons_append, List.append_assoc, List.singleton_append]
      rw [stripL_qstr]
      simp
    | arr items =>
      rw [Json.wf] at hwf
      have hx : ∀ x ∈ items, ∀ t, stripL false false (dumpVal cItemSep cKeySep x ++ t)
          = dumpVal mItemSep mKeySep x ++ stripL false false t := by
        intro x hmem t
        have h1 : sizeOf x < sizeOf items := List.sizeOf_lt_of_mem hmem
        have h2 : sizeOf (Json.arr items) = 1 + sizeOf items := by simp
        exact ih x (by omega) (wfList_mem hwf hmem) t
      show stripL false false (('[' :: (dumpItems cItemSep cKeySep items ++ [']'])) ++ r)
        = ('[' :: (dumpItems mItemSep mKeySep items ++ [']'])) ++ stripL false false r
      simp only [List.cons_append, List.append_assoc, List.singleton_append]
      rw [stripL_keep '[' false _ (by decide) (by decide), strip_dumpItemsC items hx,
          stripL_keep ']' false _ (by decide) (by decide)]
      simp
    | obj fs =>
      rw [Json.wf] at hwf
      have hx : ∀ f ∈ fs, ∀ t, stripL false false (dumpVal cItemSep cKeySep f.2 ++ t)
          = dumpVal mItemSep mKeySep f.2 ++ stripL false false t := by
        intro f hmem t
        have h1 : sizeOf f < sizeOf fs := List.sizeOf_lt_of_mem hmem
        have h2 : sizeOf (Json.obj fs) = 1 + sizeOf fs := by simp
        have h3 : sizeOf f.2 < sizeOf f := by
          match f with
          | (k, v) => simp_arith
        exact ih f.2 (by omega) (wfFields_val hwf hmem) t
      show stripL false false (('{' :: (dumpFields cItemSep cKeySep fs ++ ['}'])) ++ r)
        = ('{' :: (dumpFields mItemSep mKeySep fs ++ ['}'])) ++ stripL false false r
      simp only [List.cons_append, List.append_assoc, List.singleton_append]
      rw [stripL_keep '{' false _ (by decide) (by decide), strip_dumpFieldsC fs hx,
          stripL_keep '}' false _ (by decide) (by decide)]
      simp

theorem strip_pdumpItems (d : Nat) (items : List Json)
    (IH : ∀ x ∈ items, ∀ r, stripL false false (pdumpVal d x ++ r)
      = dumpVal mItemSep mKeySep x ++ stripL false false r) :
    ∀ r, stripL false false (pdumpItems d items ++ r)
      = dumpItems mItemSep mKeySep items ++ stripL false false r := by
  induction items with
  | nil =>
    intro r
    simp [pdumpItems, dumpItems]
  | cons x rest ih =>
    intro r
    cases rest with
    | nil => exact IH x (by simp) r
    | cons y rest2 =>
      show stripL false false
          ((pdumpVal d x ++ ',' :: '\n' :: (ind d ++ pdumpItems d (y :: rest2))) ++ r)
        = _
      simp only [List.cons_append, List.append_assoc]
      rw [IH x (by simp) _, stripL_keep ',' false _ (by decide) (by decide),
          stripL_nl_ind, ih (fun z hz => IH z (List.mem_cons_of_mem x hz)) r]
      show _ = (dumpVal mItemSep mKeySep x ++ mItemSep
        ++ dumpItems mItemSep mKeySep (y :: rest2)) ++ stripL false false r
      simp [mItemSep, List.append_assoc]

theorem strip_pdumpFields (d : Nat) (fs : List (String × Json))
    (IH : ∀ f ∈ fs, ∀ r, stripL false false (pdumpVal d f.2 ++ r)
      = dumpVal mItemSep mKeySep f.2 ++ stripL false false r) :
    ∀ r, stripL false false (pdumpFields d fs ++ r)
      = dumpFields mItemSep mKeySep fs ++ stripL false false r := by
  induction fs with
  | nil =>
    intro r
    simp [pdumpFields, dumpFields]
  | cons f rest ih =>
    intro r
    match f with
    | (k, v) =>
      cases rest with
      | nil =>
        show stripL false false
            (('"' :: (escStr k.data ++ ('"' :: (cKeySep ++ pdumpVal d v)))) ++ r) = _
        simp only [List.cons_append, List.append_assoc]
        rw [stripL_qstr, stripL_keySepC, IH (k, v) (by simp) r]
        show _ = '"' :: (escStr k.data ++ ('"' :: (mKeySep
          ++ dumpVal mItemSep mKeySep v))) ++ stripL false false r
        simp [List.append_assoc]
      | cons g rest2 =>
        show stripL false false
            ((('"' :: (escStr k.data ++ ('"' :: (cKeySep ++ pdumpVal d v))))
              ++ ',' :: '\n' :: (ind d ++ pdumpFields d (g :: rest2))) ++ r) = _
        simp only [List.cons_append, List.append_assoc]
        rw [stripL_qstr, stripL_keySepC, IH (k, v) (by simp) _,
            stripL_keep ',' false _ (by decide) (by decide), stripL_nl_ind,
            ih (fun z hz => IH z (List.mem_cons_of_mem (k, v) hz)) r]
        show _ = (('"' :: (escStr k.data ++ ('"' :: (mKeySep
          ++ dumpVal mItemSep mKeySep v)))) ++ mItemSep
          ++ dumpFields mItemSep mKeySep (g :: rest2)) ++ stripL false false r
        simp [mItemSep, List.append_assoc]

theorem strip_pdump (n : Nat) (d : Nat) (j : Json) (hsz : sizeOf j ≤ n)
    (hwf : Json.wf j = true) (r : List Char) :
    stripL false false (pdumpVal d j ++ r)
      = dumpVal mItemSep mKeySep j ++ stripL false false r := by
  induction n generalizing d j r with
  | zero => exact absurd hsz (by have := json_sizeOf_pos j; omega)
  | succ n ih =>
    cases j with
    | null => exact stripL_plain ("null").data (by decide) false r
    | bool b =>
      cases b
      · exact stripL_plain ("false").data (by decide) false r
      · exact stripL_plain ("true").data (by decide) false r
    | num lit =>
      rw [Json.wf] at hwf
      exact stripL_plain _ (numLit_all_plain _ hwf) false r
    | str s =>
      show stripL false false (('"' :: (escStr s.data ++ ['"'])) ++ r)
        = ('"' :: (escStr s.data ++ ['"'])) ++ stripL false false r
      simp only [List.cons_append, List.append_assoc, List.singleton_append]
      rw [stripL_qstr]
      simp
    | arr items =>
      rw [Json.wf] at hwf
      have hx : ∀ x ∈ items, ∀ t, stripL false false (pdumpVal (d + 1) x ++ t)
          = dumpVal mItemSep mKeySep x ++ stripL false false t := by
        intro x hmem t
        have h1 : sizeOf x < sizeOf items := List.sizeOf_lt_of_mem hmem
        have h2 : sizeOf (Json.arr items) = 1 + sizeOf items := by simp
        exact ih (d + 1) x (by omega) (wfList_mem hwf hmem) t
      cases items with
      | nil => exact stripL_plain ['[', ']'] (by decide) false r
      | cons x rest =>
        show stripL false false
            (('[' :: '\n' :: (ind (d + 1) ++ (pdumpItems (d + 1) (x :: rest)
              ++ '\n' :: (ind d ++ [']'])))) ++ r) = _
        simp only [List.cons_append, List.append_assoc, List.singleton_append]
        rw [stripL_keep '[' false _ (by decide) (by decide), stripL_nl_ind,
            strip_pdumpItems (d + 1) (x :: rest) hx, stripL_nl_ind,
            stripL_keep ']' false _ (by decide) (by decide)]
        show _ = ('[' :: (dumpItems mItemSep mKeySep (x :: rest) ++ [']']))
          ++ stripL false false r
        simp [List.append_assoc]
    | obj fs =>
      rw [Json.wf] at hwf
      have hx : ∀ f ∈ fs, ∀ t, stripL false false (pdumpVal (d + 1) f.2 ++ t)
          = dumpVal mItemSep mKeySep f.2 ++ stripL false false t := by
        intro f hmem t
        have h1 : sizeOf f < sizeOf fs := List.sizeOf_lt_of_mem hmem
        have h2 : sizeOf (Json.obj fs) = 1 + sizeOf fs := by simp
        have h3 : sizeOf f.2 < sizeOf f := by
          match f with
          | (k, v) => simp_arith
        exact ih (d + 1) f.2 (by omega) (wfFields_val hwf hmem) t
      cases fs with
      | nil => exact stripL_plain ['{', '}'] (by decide) false r
      | cons f rest =>
        show stripL false false
            (('{' :: '\n' :: (ind (d + 1) ++ (pdumpFields (d + 1) (f :: rest)
              ++ '\n' :: (ind d ++ ['}'])))) ++ r) = _
        simp only [List.cons_append, List.append_assoc, List.singleton_append]
        rw [stripL_keep '{' false _ (by decide) (by decide), stripL_nl_ind,
            strip_pdumpFields (d + 1) (f :: rest) hx, stripL_nl_ind,
            stripL_keep '}' false _ (by decide) (by decide)]
        show _ = ('{' :: (dumpFields mItemSep mKeySep (f :: rest) ++ ['}']))
          ++ stripL false false r
        simp [List.append_assoc]

theorem stripJson_dumpC (j : Json) (hwf : Json.wf j = true) :
    stripJson (dumpVal cItemSep cKeySep j) = dumpVal mItemSep mKeySep j := by
  have h := strip_dumpC (sizeOf j) j le_rfl hwf []
  rw [List.append_nil] at h
  rw [stripJson, h, stripL_nil, List.append_nil]

theorem stripJson_pdump_nl (j : Json) (hwf : Json.wf j = true) :
    stripJson (pdumpVal 0 j ++ ['\n']) = dumpVal mItemSep mKeySep j := by
  have h := strip_pdump (sizeOf j) 0 j le_rfl hwf ['\n']
  rw [stripJson, h, stripL_ws '\n' false [] (by decide), stripL_nil,
      List.append_nil]

theorem insertKey_wf (acc : List (String × Json)) (k : String) (v : Json)
    (ha : Json.wfFields acc = true) (hv : Json.wf v = true) :
    Json.wfFields (insertKey acc k v) = true := by
  induction acc with
  | nil => simp [insertKey, Json.wfFields, hv]
  | cons g rest ih =>
    rw [Json.wfFields, Bool.and_eq_true] at ha
    match g with
    | (k2, v2) =>
      rw [insertKey]
      by_cases hk : k2 = k
      · rw [if_pos hk, Json.wfFields, Bool.and_eq_true]
        exact ⟨hv, ha.2⟩
      · rw [if_neg hk, Json.wfFields, Bool.and_eq_true]
        exact ⟨ha.1, ih ha.2⟩

theorem wfList_append_one (acc : List Json) (v : Json)
    (ha : Json.wfList acc = true) (hv : Json.wf v = true) :
    Json.wfList (acc ++ [v]) = true := by
  induction acc with
  | nil => simp [Json.wfList, hv]
  | cons x rest ih =>
    rw [Json.wfList, Bool.and_eq_true] at ha
    rw [List.cons_append, Json.wfList, Bool.and_eq_true]
    exact ⟨ha.1, ih ha.2⟩

theorem takeWhile_all_numBody (l : List Char) :
    (l.takeWhile isNumBodyChar).all isNumLitChar = true := by
  rw [List.all_eq_true]
  intro c hc
  exact numBody_lit c (List.mem_takeWhile_imp hc)

theorem parseScalar_wf (l : List Char) (j : Json) (r : List Char)
    (h : parseScalar l = some (j, r)) : Json.wf j = true := by
  unfold parseScalar at h
  split at h
  · injection h with h1
    injection h1 with h2 h3
    subst h2
    rfl
  split at h
  · injection h with h1
    injection h1 with h2 h3
    subst h2
    rfl
  split at h
  · injection h with h1
    injection h1 with h2 h3
    subst h2
    rfl
  split at h
  · injection h with h1
    injection h1 with h2 h3
    subst h2
    decide
  split at h
  · injection h with h1
    injection h1 with h2 h3
    subst h2
    decide
  split at h
  · injection h with h1
    injection h1 with h2 h3
    subst h2
    decide
  rw [parseNumber] at h
  split at h
  · injection h with h1
    injection h1 with h2 h3
    subst h2
    rw [Json.wf]
    exact takeWhile_all_numBody _
  · exact absurd h (by simp)

theorem parser_wf (fu : Nat) :
    (∀ l j r, parseValue fu l = some (j, r) → Json.wf j = true) ∧
    (∀ acc l j r, Json.wfFields acc = true →
      parseMembers fu acc l = some (j, r) → Json.wf j = true) ∧
    (∀ acc l j r, Json.wfList acc = true →
      parseItems fu acc l = some (j, r) → Json.wf j = true) := by
  induction fu with
  | zero =>
    refine ⟨?_, ?_, ?_⟩
    · intro l j r h
      simp [parseValue] at h
    · intro acc l j r _ h
      simp [parseMembers] at h
    · intro acc l j r _ h
      simp [parseItems] at h
  | succ fu ih =>
    refine ⟨?_, ?_, ?_⟩
    · intro l j r h
      rw [parseValue] at h
      split at h
      · exact absurd h (by simp)
      · split at h
        · split at h
          · exact ih.2.1 [] _ j r rfl h
          · split at h
            · injection h with h1
              injection h1 with h2 h3
              subst h2
              rfl
            · exact ih.2.1 [] _ j r rfl h
        split at h
        · split at h
          · exact ih.2.2 [] _ j r rfl h
          · split at h
            · injection h with h1
              injection h1 with h2 h3
              subst h2
              rfl
            · exact ih.2.2 [] _ j r rfl h
        split at h
        · rcases Option.map_eq_some'.mp h with ⟨p, _, hp⟩
          injection hp with hj hr
          subst hj
          rfl
        · exact parseScalar_wf _ j r h
    · intro acc l j r hacc h
      rw [parseMembers] at h
      split at h
      · exact absurd h (by simp)
      · split at h
        · split at h
          · exact absurd h (by simp)
          · split at h
            · exact absurd h (by simp)
            · split at h
              · split at h
                · exact absurd h (by simp)
                · split at h
                  · exact absurd h (by simp)
                  · split at h
                    · exact ih.2.1 _ _ j r
                        (insertKey_wf acc _ _ hacc (ih.1 _ _ _ (by assumption))) h
                    · split at h
                      · injection h with h1
                        injection h1 with h2 h3
                        subst h2
                        rw [Json.wf]
                        exact insertKey_wf acc _ _ hacc
                          (ih.1 _ _ _ (by assumption))
                      · exact absurd h (by simp)
              · exact absurd h (by simp)
        · exact absurd h (by simp)
    · intro acc l j r hacc h
      rw [parseItems] at h
      split at h
      · exact absurd h (by simp)
      · split at h
        · exact absurd h (by simp)
        · split at h
          · exact ih.2.2 _ _ j r
              (wfList_append_one acc _ hacc (ih.1 _ _ _ (by assumption))) h
          · split at h
            · injection h with h1
              injection h1 with h2 h3
              subst h2
              rw [Json.wf]
              exact wfList_append_one acc _ hacc (ih.1 _ _ _ (by assumption))
            · exact absurd h (by simp)

theorem loads_wf (l : List Char) (j : Json) (h : loads l = some j) :
    Json.wf j = true := by
  rw [loads] at h
  split at h
  · split at h
    · injection h with h1
      subst h1
      exact (parser_wf _).1 _ _ _ (by assumption)
    · exact absurd h (by simp)
  · exact absurd h (by simp)

theorem validateRecord_ok (fields res : List (String × Json))
    (h : validateRecord fields = .ok res) :
    res = fields ∧ missingKeysOf fields = [] ∧
      isList5 (lookupD fields "ratingCounts") = true := by
  rw [validateRecord] at h
  split at h
  · split at h
    · injection h with h1
      exact ⟨h1.symm, by assumption, by assumption⟩
    · exact absurd h (by simp)
  · exact absurd h (by simp)

theorem extract_ok_inv (body : String) (fields : List (String × Json))
    (h : extract_product_ratings body = .ok fields) :
    Json.wfFields fields = true ∧ missingKeysOf fields = [] ∧
      isList5 (lookupD fields "ratingCounts") = true := by
  rw [extract_product_ratings] at h
  split at h
  · exact absurd h (by simp)
  · split at h
    · rcases validateRecord_ok _ _ h with ⟨hres, hmiss, h5⟩
      subst hres
      have hw := loads_wf _ _ (by assumption)
      rw [Json.wf, Json.wfList, Bool.and_eq_true] at hw
      have := hw.1
      rw [Json.wf] at this
      exact ⟨this, hmiss, h5⟩
    · exact absurd h (by simp)
    · exact absurd h (by simp)

theorem fetch_ok_inv (st : Nat) (body : String) (s : RatingSummary)
    (h : fetch_product_ratings (.response st body) = .ok s) :
    ¬(400 ≤ st ∧ st < 600) ∧
      ∃ fields, extract_product_ratings body = .ok fields ∧ s = summaryOf fields := by
  rw [fetch_product_ratings] at h
  split at h
  · exact absurd h (by simp)
  · refine ⟨by assumption, ?_⟩
    split at h
    · exact absurd h (by simp)
    · injection h with h1
      exact ⟨_, by assumption, h1.symm⟩

theorem summaryOf_wf (fields : List (String × Json))
    (h : Json.wfFields fields = true) :
    Json.wf (summaryOf fields).toJson = true := by
  rw [RatingSummary.toJson, Json.wf]
  rw [Json.wfFields, Json.wfFields, Json.wfFields, Json.wfFields]
  simp only [Bool.and_eq_true]
  exact ⟨wfFields_lookupD fields _ h,
    wfFields_lookupD fields _ h, wfFields_lookupD fields _ h, trivial⟩

theorem tryMatchAt_nil : tryMatchAt [] = none := by
  rfl

theorem tryMatchAt_starts_lit (l : List Char) (g : List Char)
    (h : tryMatchAt l = some g) :
    PRODUCT_RATINGS_PATTERN_lit.isPrefixOf l = true := by
  rw [tryMatchAt] at h
  split at h
  · assumption
  · exact absurd h (by simp)

theorem patternSearch_leftmost (l : List Char) (i : Nat) (g : List Char)
    (hhit : tryMatchAt (l.drop i) = some g)
    (hmin : ∀ j, j < i → tryMatchAt (l.drop j) = none) :
    patternSearch l = some g := by
  induction i generalizing l with
  | zero =>
    rw [List.drop_zero] at hhit
    cases l with
    | nil => exact absurd hhit (by simp [tryMatchAt_nil])
    | cons c rest =>
      rw [patternSearch, hhit]
  | succ i ih =>
    cases l with
    | nil =>
      rw [List.drop_nil] at hhit
      exact absurd hhit (by simp [tryMatchAt_nil])
    | cons c rest =>
      have h0 : tryMatchAt (c :: rest) = none := by
        have := hmin 0 (Nat.succ_pos i)
        rwa [List.drop_zero] at this
      rw [patternSearch, h0]
      exact ih rest (by rwa [List.drop_succ_cons] at hhit)
        (fun j hj => by
          have := hmin (j + 1) (Nat.succ_lt_succ hj)
          rwa [List.drop_succ_cons] at this)

theorem patternSearch_none_of_no_lit (l : List Char)
    (h : containsTok PRODUCT_RATINGS_PATTERN_lit l = false) :
    patternSearch l = none := by
  induction l with
  | nil => rfl
  | cons c rest ih =>
    rw [containsTok, Bool.or_eq_false_iff] at h
    have hno : tryMatchAt (c :: rest) = none := by
      cases htm : tryMatchAt (c :: rest) with
      | none => rfl
      | some g => exact absurd (tryMatchAt_starts_lit _ _ htm) (by simp [h.1])
    rw [patternSearch, hno]
    exact ih h.2

theorem runCli_fetch_error (argv : List String) (a : Args)
    (outcome : FetchOutcome) (m : String)
    (hp : parse_args argv = .ok a)
    (hf : fetch_product_ratings outcome = .error m) :
    runCli argv outcome = ⟨1, "", "error: " ++ m ++ "\n"⟩ := by
  simp only [runCli, hp, hf]

theorem runCli_fetch_ok (argv : List String) (a : Args)
    (outcome : FetchOutcome) (s : RatingSummary)
    (hp : parse_args argv = .ok a)
    (hf : fetch_product_ratings outcome = .ok s) :
    runCli argv outcome = ⟨0, dumpsSummary a.pretty s, ""⟩ := by
  simp only [runCli, hp, hf]

theorem fetch_ok_of_extract (st : Nat) (body : String)
    (fields : List (String × Json))
    (hst : ¬(400 ≤ st ∧ st < 600))
    (hx : extract_product_ratings body = .ok fields) :
    fetch_product_ratings (.response st body) = .ok (summaryOf fields) := by
  rw [fetch_product_ratings, if_neg hst, hx]
  rfl

/-- C1 (amended): for every successful (HTTP 200) response body on which
the marker pattern's first match captures the scenario object
`\x7b"ratingAverage":4.5,"totalNumberOfRatings":120,"ratingCounts":[80,20,10,5,5]\x7d`,
running the CLI with any argument list that parses without `--pretty`
writes to standard output exactly
`\x7b"ratingAverage": 4.5, "totalNumberOfRatings": 120, "ratingCounts": [80, 20, 10, 5, 5]\x7d`
(keys in that order), writes nothing to standard error, and exits with
code 0.  (The original claim quantified over every body merely containing
the block; `C1_contains_block_cex` shows a body containing the block whose
earlier marker block yields different output.) -/
theorem C1_scenario_output (body : String) (argv : List String) (a : Args)
    (hp : parse_args argv = .ok a) (hnp : a.pretty = false)
    (h : patternSearch body.data = some blockObjX.data) :
    runCli argv (.response 200 body) = ⟨0, expectedOutX, ""⟩ := by
  have hx : extract_product_ratings body = .ok fieldsX := by
    rw [extract_product_ratings, h]
    rfl
  have hf : fetch_product_ratings (.response 200 body) = .ok (summaryOf fieldsX) :=
    fetch_ok_of_extract 200 body fieldsX (by omega) hx
  rw [runCli_fetch_ok argv a _ _ hp hf, hnp]
  rfl

/-- Witness for C1: the scenario body embeds the block in inert HTML; the
pattern's first match captures the scenario object and the CLI prints the
expected compact line. -/
theorem C1_scenario_output_witness :
    parse_args ["123"] = .ok ⟨"123", "ua", false⟩ ∧
    patternSearch bodyX.data = some blockObjX.data ∧
    runCli ["123"] (.response 200 bodyX) = ⟨0, expectedOutX, ""⟩ :=
  ⟨rfl, rfl, C1_scenario_output bodyX ["123"] ⟨"123", "ua", false⟩ rfl rfl rfl⟩

/-- Counterexample to C1 as stated: `evilBody` contains the scenario block
verbatim, the run still succeeds (exit code 0), but the output is not the
expected string, because the pattern matches an earlier productRatings
block with different numbers. -/
theorem C1_contains_block_cex :
    containsTok blockX.data evilBody.data = true ∧
    (runCli ["123"] (.response 200 evilBody)).exitCode = 0 ∧
    (runCli ["123"] (.response 200 evilBody)).stdout ≠ expectedOutX := by
  refine ⟨by decide, rfl, by decide⟩

/-- C2: for every body whose productRatings extraction succeeds with the
validated record `fields`, the fetch returns the summary built from
exactly the three required fields of `fields`; its JSON record has exactly
the keys `ratingAverage`, `totalNumberOfRatings`, `ratingCounts` in that
order, with values looked up unchanged from the source record (any
additional source fields are thereby excluded); and the compact run
prints exactly the serialization of that three-field record. -/
theorem C2_exact_three_fields (body : String) (fields : List (String × Json))
    (h : extract_product_ratings body = .ok fields) :
    fetch_product_ratings (.response 200 body) = .ok (summaryOf fields) ∧
    (summaryOf fields).toJson =
      .obj [("ratingAverage", lookupD fields "ratingAverage"),
            ("totalNumberOfRatings", lookupD fields "totalNumberOfRatings"),
            ("ratingCounts", lookupD fields "ratingCounts")] ∧
    (runCli ["1"] (.response 200 body)).stdout =
      ⟨dumpVal cItemSep cKeySep (summaryOf fields).toJson⟩ := by
  have hf : fetch_product_ratings (.response 200 body) = .ok (summaryOf fields) :=
    fetch_ok_of_extract 200 body fields (by omega) h
  refine ⟨hf, rfl, ?_⟩
  rw [runCli_fetch_ok ["1"] ⟨"1", "ua", false⟩ _ _ rfl hf]
  rfl

/-- Witness for C2: a record with a fourth field `extra` still yields the
three-field summary, with the extra field excluded. -/
theorem C2_exact_three_fields_witness :
    extract_product_ratings bodyExtra = .ok fieldsExtra ∧
    fetch_product_ratings (.response 200 bodyExtra) = .ok (summaryOf fieldsExtra) ∧
    (runCli ["1"] (.response 200 bodyExtra)).stdout = expectedOutX :=
  ⟨rfl, (C2_exact_three_fields bodyExtra fieldsExtra rfl).1,
    ((C2_exact_three_fields bodyExtra fieldsExtra rfl).2.2).trans (by rfl)⟩

/-- Helper: a compact serialization of an object ends with a closing
brace. -/
theorem dumpC_obj_getLast (isep ksep : List Char) (fs : List (String × Json)) :
    (dumpVal isep ksep (.obj fs)).getLast? = some '}' := by
  show ('{' :: (dumpFields isep ksep fs ++ ['}'])).getLast? = some '}'
  rw [← List.cons_append, List.getLast?_concat]

/-- C3 (amended): for every successful invocation whose parsed arguments
lack `--pretty`, standard output is exactly the `json.dumps` rendering
with Python's default separators (so a space does follow each colon and
comma), written on one line ending in the closing brace, with no trailing
newline.  (The original claim's "contains no whitespace" fails:
`C3_whitespace_cex` exhibits a successful compact run whose output
contains spaces.) -/
theorem C3_compact_no_trailing_newline (argv : List String) (a : Args)
    (outcome : FetchOutcome) (s : RatingSummary)
    (hp : parse_args argv = .ok a) (hnp : a.pretty = false)
    (hf : fetch_product_ratings outcome = .ok s) :
    (runCli argv outcome).stdout = ⟨dumpVal cItemSep cKeySep s.toJson⟩ ∧
    (runCli argv outcome).stdout.data.getLast? = some '}' ∧
    (runCli argv outcome).stdout.data.getLast? ≠ some '\n' := by
  rw [runCli_fetch_ok argv a outcome s hp hf, hnp]
  have hl : (dumpsSummary false s).data.getLast? = some '}' := by
    show (dumpVal cItemSep cKeySep s.toJson).getLast? = some '}'
    show (dumpVal cItemSep cKeySep (.obj
      [("ratingAverage", s.ratingAverage),
       ("totalNumberOfRatings", s.totalNumberOfRatings),
       ("ratingCounts", s.ratingCounts)])).getLast? = some '}'
    exact dumpC_obj_getLast cItemSep cKeySep _
  refine ⟨rfl, hl, ?_⟩
  rw [hl]
  decide

/-- Witness for C3 (amended): the scenario run prints the expected line,
which ends in a brace rather than a newline. -/
theorem C3_compact_no_trailing_newline_witness :
    fetch_product_ratings (.response 200 bodyX) = .ok (summaryOf fieldsX) ∧
    (runCli ["1"] (.response 200 bodyX)).stdout.data.getLast? = some '}' :=
  ⟨rfl, (C3_compact_no_trailing_newline ["1"] ⟨"1", "ua", false⟩
    (.response 200 bodyX) (summaryOf fieldsX) rfl rfl rfl).2.1⟩

/-- Counterexample to C3 as stated: a successful compact run whose output
contains whitespace (the spaces of Python's default separators). -/
theorem C3_whitespace_cex :
    (runCli ["1"] (.response 200 bodyX)).exitCode = 0 ∧
    (runCli ["1"] (.response 200 bodyX)).stdout.data.any isJsonWs = true := by
  exact ⟨rfl, by decide⟩

/-- C4 (amended): for a decoded record with no missing required keys,
validation accepts exactly when `ratingCounts` is a JSON array of exactly
five entries, of any type, and otherwise fails with the shape error; in
particular a 4-element histogram is rejected.  Entry types are not
checked.  (The original claim's "five numeric entries" fails:
`C4_nonnumeric_cex` shows extraction succeeding on five string
entries.) -/
theorem C4_shape_check (fields : List (String × Json))
    (h : missingKeysOf fields = []) :
    (validateRecord fields = .ok fields ↔
      isList5 (lookupD fields "ratingCounts") = true) ∧
    (validateRecord fields = .error rcMsg ↔
      isList5 (lookupD fields "ratingCounts") = false) := by
  have hgoal : validateRecord fields =
      (if isList5 (lookupD fields "ratingCounts") then Except.ok fields
       else Except.error rcMsg) := by
    rw [validateRecord, h]
  by_cases h5 : isList5 (lookupD fields "ratingCounts") = true
  · rw [hgoal, if_pos h5]
    simp [h5]
  · rw [hgoal, if_neg (by simpa using h5)]
    simp [h5, Bool.not_eq_true]

/-- Witness for C4 (amended): the four-element record passes the
missing-key check and is rejected by the shape check. -/
theorem C4_shape_check_witness :
    missingKeysOf fieldsFour = [] ∧ validateRecord fieldsFour = .error rcMsg :=
  ⟨rfl, (C4_shape_check fieldsFour rfl).2.mpr rfl⟩

/-- Counterexample to C4 as stated: extraction succeeds on a record whose
`ratingCounts` holds five strings, so non-numeric entries are not
rejected. -/
theorem C4_nonnumeric_cex :
    extract_product_ratings bodyStrs = .ok fieldsStrs ∧
    lookupD fieldsStrs "ratingCounts" =
      .arr [.str "a", .str "b", .str "c", .str "d", .str "e"] :=
  ⟨rfl, rfl⟩

/-- C5: when the decoded record lacks required keys, extraction fails with
the message listing exactly the missing keys — the listed keys are exactly
those of the required triple not present in the record, in source
order. -/
theorem C5_missing_keys_listed (body : String) (g : List Char)
    (fields : List (String × Json)) (rest : List Json)
    (hscan : patternSearch body.data = some g)
    (hload : loads ('[' :: (g ++ [']'])) = some (.arr (.obj fields :: rest)))
    (hmiss : missingKeysOf fields ≠ []) :
    extract_product_ratings body = .error (missingMsg (missingKeysOf fields)) ∧
    (∀ k, k ∈ missingKeysOf fields ↔
      (k ∈ requiredKeys ∧ containsKey fields k = false)) := by
  constructor
  · simp only [extract_product_ratings, hscan, hload]
    rw [validateRecord]
    split
    · exact absurd (by assumption) hmiss
    · rfl
  · intro k
    rw [missingKeysOf, List.mem_filter]
    simp [Bool.not_eq_true']

/-- Witness for C5: the record missing `totalNumberOfRatings` and
`ratingCounts` produces the message naming exactly those two. -/
theorem C5_missing_keys_listed_witness :
    extract_product_ratings bodyMissing = .error
      "Missing expected keys in productRatings block: totalNumberOfRatings, ratingCounts" :=
  ((C5_missing_keys_listed bodyMissing captureMissing.data fieldsMissing []
    rfl rfl (by decide)).1).trans (by rfl)

/-- C6: whenever the marker pattern has no match in the body, extraction
fails with the block-not-found error; and any body not containing the
pattern's literal marker text (in particular one whose block has a
non-null marker value) has no match. -/
theorem C6_block_not_found :
    (∀ body : String, patternSearch body.data = none →
      extract_product_ratings body = .error notFoundMsg) ∧
    (∀ body : String, containsTok PRODUCT_RATINGS_PATTERN_lit body.data = false →
      patternSearch body.data = none) := by
  constructor
  · intro body h
    rw [extract_product_ratings, h]
  · intro body h
    exact patternSearch_none_of_no_lit _ h

/-- Witness for C6: a body whose block carries `"marker":"abc"` yields the
not-found error, and a body without the marker has no pattern match. -/
theorem C6_block_not_found_witness :
    extract_product_ratings bodyNonNull = .error notFoundMsg ∧
    patternSearch bodyPlain.data = none :=
  ⟨C6_block_not_found.1 bodyNonNull rfl,
   C6_block_not_found.2 bodyPlain (by decide)⟩

/-- C7 (amended): for every response status in 400-599 — the statuses for
which `raise_for_status` raises `HTTPError` — the fetch fails with the
message naming the numeric status, and the CLI writes the single line
`error: App Store page returned HTTP <status>` to standard error and
exits 1.  (The original "every non-2xx status" fails: `C7_304_cex` shows a
304 response, which `raise_for_status` does not raise on, flowing on to
extraction and succeeding.) -/
theorem C7_http_error_status (st : Nat) (body : String) (argv : List String)
    (a : Args) (hp : parse_args argv = .ok a) (h4 : 400 ≤ st) (h6 : st < 600) :
    fetch_product_ratings (.response st body) =
      .error ("App Store page returned HTTP " ++ toString st) ∧
    runCli argv (.response st body) =
      ⟨1, "", "error: App Store page returned HTTP " ++ toString st ++ "\n"⟩ := by
  have hf : fetch_product_ratings (.response st body) =
      .error ("App Store page returned HTTP " ++ toString st) := by
    rw [fetch_product_ratings, if_pos ⟨h4, h6⟩]
  refine ⟨hf, ?_⟩
  rw [runCli_fetch_error argv a _ _ hp hf]
  show CliResult.mk 1 "" ("error: " ++ ("App Store page returned HTTP " ++ toString st) ++ "\n") = _
  rw [← String.append_assoc]
  rfl

/-- Witness for C7 (amended) at the scenario status 404. -/
theorem C7_http_error_status_witness :
    (400 ≤ 404 ∧ 404 < 600) ∧
    runCli ["1"] (.response 404 bodyX) =
      ⟨1, "", "error: App Store page returned HTTP 404\n"⟩ :=
  ⟨⟨by omega, by omega⟩,
   ((C7_http_error_status 404 bodyX ["1"] ⟨"1", "ua", false⟩ rfl
     (by omega) (by omega)).2).trans (by rfl)⟩

/-- Counterexample to C7 as stated: 304 is not a 2xx status, yet the run
does not fail with a status error — it proceeds to extraction and here
exits 0 with empty standard error. -/
theorem C7_304_cex :
    (304 < 200 ∨ 300 ≤ 304) ∧
    (runCli ["1"] (.response 304 bodyX)).exitCode = 0 ∧
    (runCli ["1"] (.response 304 bodyX)).stderr = "" :=
  ⟨by omega, rfl, rfl⟩

/-- C8 (amended): for every invocation whose command-line arguments parse,
the process exits 0 on pipeline success and 1 on pipeline failure; on
failure standard error is exactly the one line `error: <message>` and
standard output is empty, and on success standard error is empty.
(The original "every invocation ... exits 0 or 1" fails:
`C8_argparse_exit2_cex` shows the missing-argument invocation exiting
with argparse's code 2.) -/
theorem C8_exit_codes_streams (argv : List String) (a : Args)
    (outcome : FetchOutcome) (hp : parse_args argv = .ok a) :
    (∀ m, fetch_product_ratings outcome = .error m →
      runCli argv outcome = ⟨1, "", "error: " ++ m ++ "\n"⟩) ∧
    (∀ s, fetch_product_ratings outcome = .ok s →
      (runCli argv outcome).exitCode = 0 ∧ (runCli argv outcome).stderr = "") := by
  constructor
  · intro m hf
    exact runCli_fetch_error argv a outcome m hp hf
  · intro s hf
    rw [runCli_fetch_ok argv a outcome s hp hf]
    exact ⟨rfl, rfl⟩

/-- Witness for C8 (amended): a parsed invocation with a 404 response
exits 1 with the single error line and empty standard output. -/
theorem C8_exit_codes_streams_witness :
    runCli ["9", "--country", "us"] (.response 404 bodyX) =
      ⟨1, "", "error: App Store page returned HTTP 404\n"⟩ :=
  ((C8_exit_codes_streams ["9", "--country", "us"] ⟨"9", "us", false⟩
    (.response 404 bodyX) rfl).1 "App Store page returned HTTP 404" rfl).trans
    (by rfl)

/-- Counterexample to C8 as stated: the invocation with no arguments fails
in argparse, which exits with code 2, not 1 (and not 0). -/
theorem C8_argparse_exit2_cex :
    (runCli [] (.response 200 bodyX)).exitCode = 2 ∧
    (runCli [] (.response 200 bodyX)).exitCode ≠ 0 ∧
    (runCli [] (.response 200 bodyX)).exitCode ≠ 1 :=
  ⟨rfl, by decide, by decide⟩

/-- C9: for every body on which extraction (behind a 200 response)
succeeds, the pretty and the compact runs print serializations of the
same JSON data — after removing JSON-insignificant whitespace outside
string literals, which is exactly what separates the two renderings, the
outputs are equal; the pretty output is indented (it opens with the brace,
a newline and the two-space indent) and ends with a trailing newline,
while the compact output ends with the closing brace, not a newline. -/
theorem C9_pretty_compact_same_data (body : String) (s : RatingSummary)
    (hf : fetch_product_ratings (.response 200 body) = .ok s) :
    stripJson (runCli ["1", "--pretty"] (.response 200 body)).stdout.data
      = stripJson (runCli ["1"] (.response 200 body)).stdout.data ∧
    (runCli ["1", "--pretty"] (.response 200 body)).stdout.data.getLast? = some '\n' ∧
    (runCli ["1"] (.response 200 body)).stdout.data.getLast? = some '}' ∧
    (∃ w, (runCli ["1", "--pretty"] (.response 200 body)).stdout.data
      = '{' :: '\n' :: ' ' :: ' ' :: w) := by
  have hwf : Json.wf s.toJson = true := by
    rcases fetch_ok_inv 200 body s hf with ⟨_, fields, hx, hs⟩
    subst hs
    exact summaryOf_wf fields (extract_ok_inv body fields hx).1
  rw [runCli_fetch_ok ["1", "--pretty"] ⟨"1", "ua", true⟩ _ s rfl hf,
      runCli_fetch_ok ["1"] ⟨"1", "ua", false⟩ _ s rfl hf]
  refine ⟨?_, ?_, ?_, ?_⟩
  · show stripJson (pdumpVal 0 s.toJson ++ ['\n'])
      = stripJson (dumpVal cItemSep cKeySep s.toJson)
    rw [stripJson_pdump_nl _ hwf, stripJson_dumpC _ hwf]
  · show (pdumpVal 0 s.toJson ++ ['\n']).getLast? = some '\n'
    exact List.getLast?_concat _
  · show (dumpVal cItemSep cKeySep (.obj
      [("ratingAverage", s.ratingAverage),
       ("totalNumberOfRatings", s.totalNumberOfRatings),
       ("ratingCounts", s.ratingCounts)])).getLast? = some '}'
    exact dumpC_obj_getLast cItemSep cKeySep _
  · exact ⟨_, rfl⟩

/-- Witness for C9 on the scenario body. -/
theorem C9_pretty_compact_same_data_witness :
    fetch_product_ratings (.response 200 bodyX) = .ok (summaryOf fieldsX) ∧
    stripJson (runCli ["1", "--pretty"] (.response 200 bodyX)).stdout.data
      = stripJson (runCli ["1"] (.response 200 bodyX)).stdout.data :=
  ⟨rfl, (C9_pretty_compact_same_data bodyX (summaryOf fieldsX) rfl).1⟩

/-- C10: the search uses the leftmost position at which the pattern
matches — if the pattern matches at position `i` and at no earlier
position, that match is the result — and when the captured items text
decodes to an array of several objects, extraction proceeds with the
first object of the array (the remaining objects do not influence the
result). -/
theorem C10_leftmost_first_object :
    (∀ (l : List Char) (i : Nat) (g : List Char),
      tryMatchAt (l.drop i) = some g →
      (∀ j, j < i → tryMatchAt (l.drop j) = none) →
      patternSearch l = some g) ∧
    (∀ (body : String) (g : List Char) (fields : List (String × Json))
      (rest : List Json),
      patternSearch body.data = some g →
      loads ('[' :: (g ++ [']'])) = some (.arr (.obj fields :: rest)) →
      extract_product_ratings body = validateRecord fields) := by
  constructor
  · exact patternSearch_leftmost
  · intro body g fields rest hscan hload
    simp only [extract_product_ratings, hscan, hload]

/-- Witness for C10: on a body with two marker blocks whose first items
array holds two objects, the capture comes from the first block (position
6, after the `<html>` prefix, with no earlier match) and the extracted
record is the first of the two decoded objects. -/
theorem C10_leftmost_first_object_witness :
    patternSearch bodyTwo.data = some captureTwo.data ∧
    extract_product_ratings bodyTwo = validateRecord fieldsTwo :=
  ⟨C10_leftmost_first_object.1 bodyTwo.data 6 captureTwo.data rfl (by decide),
   C10_leftmost_first_object.2 bodyTwo captureTwo.data fieldsTwo
     [.obj [("ratingAverage", .num "9")]] rfl rfl⟩

end ASRE
